import Mathlib

/-!
Verification of the attendance application's core algorithms
(descriptor codec, gallery matcher, scan-session state, face tracker,
enrollment capture), shallowly embedded from the TypeScript source.

Numeric JavaScript values are modelled as rationals; 32-bit floats are
modelled by their bit patterns (naturals below 2^32), since the codec
operates on raw bytes and never on the numeric value.  A possibly-NaN
JavaScript number is modelled as `Option ℚ` with `none` standing for NaN.
-/

set_option maxRecDepth 10000

/-! ## Descriptor codec (src/src/lib/face.ts) -/

/-- The base64 alphabet used by JavaScript btoa and atob (RFC 4648). -/
def b64Alphabet : List Char :=
  "ABCDEFGHIJKLMNOPQRSTUVWXYZabcdefghijklmnopqrstuvwxyz0123456789+/".toList

/-- Character encoding a six-bit group (meaningful only for `n < 64`). -/
def charOfSextet (n : Nat) : Char := b64Alphabet.getD n '='

/-- Inverse alphabet lookup; `none` for characters outside the alphabet. -/
def sextetOfChar (c : Char) : Option Nat :=
  let i := b64Alphabet.indexOf c
  if i < 64 then some i else none

/-- JavaScript `btoa` on a byte sequence: each 3 bytes become 4 characters,
with trailing groups of 1 or 2 bytes padded by `=`. -/
def btoa : List Nat → List Char
  | [] => []
  | [b0] =>
      [charOfSextet (b0 / 4), charOfSextet (b0 % 4 * 16), '=', '=']
  | [b0, b1] =>
      [charOfSextet (b0 / 4), charOfSextet (b0 % 4 * 16 + b1 / 16),
       charOfSextet (b1 % 16 * 4), '=']
  | b0 :: b1 :: b2 :: rest =>
      charOfSextet (b0 / 4) :: charOfSextet (b0 % 4 * 16 + b1 / 16) ::
      charOfSextet (b1 % 16 * 4 + b2 / 64) :: charOfSextet (b2 % 64) :: btoa rest

/-- JavaScript `atob`: decode 4 characters to 3 bytes, honoring `=` padding,
which is legal only in the final group. -/
def atob : List Char → Option (List Nat)
  | [] => some []
  | c0 :: c1 :: c2 :: c3 :: rest =>
      (sextetOfChar c0).bind fun s0 =>
      (sextetOfChar c1).bind fun s1 =>
      if c2 = '=' then
        if c3 = '=' ∧ rest = [] then some [s0 * 4 + s1 / 16] else none
      else
        (sextetOfChar c2).bind fun s2 =>
        if c3 = '=' then
          if rest = [] then some [s0 * 4 + s1 / 16, s1 % 16 * 16 + s2 / 4] else none
        else
          (sextetOfChar c3).bind fun s3 =>
          (atob rest).bind fun bs =>
          some ((s0 * 4 + s1 / 16) :: (s1 % 16 * 16 + s2 / 4) ::
                (s2 % 4 * 64 + s3) :: bs)
  | _ => none

theorem sextet_roundtrip : ∀ n < 64, sextetOfChar (charOfSextet n) = some n := by decide

theorem charOfSextet_ne_pad : ∀ n < 64, charOfSextet n ≠ '=' := by decide

/-- Decoding inverts encoding on arbitrary byte sequences. -/
theorem atob_btoa : ∀ l : List Nat, (∀ b ∈ l, b < 256) → atob (btoa l) = some l
  | [], _ => rfl
  | [b0], h => by
      have hb0 : b0 < 256 := h b0 (by simp)
      simp [btoa, atob, sextet_roundtrip _ (by omega : b0 / 4 < 64),
        sextet_roundtrip _ (by omega : b0 % 4 * 16 < 64)]
      omega
  | [b0, b1], h => by
      have hb0 : b0 < 256 := h b0 (by simp)
      have hb1 : b1 < 256 := h b1 (by simp)
      simp [btoa, atob, sextet_roundtrip _ (by omega : b0 / 4 < 64),
        sextet_roundtrip _ (by omega : b0 % 4 * 16 + b1 / 16 < 64),
        sextet_roundtrip _ (by omega : b1 % 16 * 4 < 64),
        charOfSextet_ne_pad _ (by omega : b1 % 16 * 4 < 64)]
      omega
  | [b0, b1, b2], h => by
      have hb0 : b0 < 256 := h b0 (by simp)
      have hb1 : b1 < 256 := h b1 (by simp)
      have hb2 : b2 < 256 := h b2 (by simp)
      simp [btoa, atob, sextet_roundtrip _ (by omega : b0 / 4 < 64),
        sextet_roundtrip _ (by omega : b0 % 4 * 16 + b1 / 16 < 64),
        sextet_roundtrip _ (by omega : b1 % 16 * 4 + b2 / 64 < 64),
        sextet_roundtrip _ (by omega : b2 % 64 < 64),
        charOfSextet_ne_pad _ (by omega : b1 % 16 * 4 + b2 / 64 < 64),
        charOfSextet_ne_pad _ (by omega : b2 % 64 < 64)]
      omega
  | b0 :: b1 :: b2 :: b3 :: rest, h => by
      have hb0 : b0 < 256 := h b0 (by simp)
      have hb1 : b1 < 256 := h b1 (by simp)
      have hb2 : b2 < 256 := h b2 (by simp)
      have ih := atob_btoa (b3 :: rest) (fun b hb => h b (by simp [hb]))
      simp [btoa, atob, ih, sextet_roundtrip _ (by omega : b0 / 4 < 64),
        sextet_roundtrip _ (by omega : b0 % 4 * 16 + b1 / 16 < 64),
        sextet_roundtrip _ (by omega : b1 % 16 * 4 + b2 / 64 < 64),
        sextet_roundtrip _ (by omega : b2 % 64 < 64),
        charOfSextet_ne_pad _ (by omega : b1 % 16 * 4 + b2 / 64 < 64),
        charOfSextet_ne_pad _ (by omega : b2 % 64 < 64)]
      omega

/-- Little-endian byte view of a list of 32-bit words
(`new Uint8Array(descriptor.buffer)`). -/
def wordsToBytes : List Nat → List Nat
  | [] => []
  | w :: ws =>
      w % 256 :: w / 256 % 256 :: w / 65536 % 256 :: w / 16777216 % 256 ::
      wordsToBytes ws

/-- Reassemble 4-byte little-endian groups into 32-bit words
(`new Float32Array(bytes.buffer)`). -/
def bytesToWords : List Nat → List Nat
  | b0 :: b1 :: b2 :: b3 :: rest =>
      (b0 + b1 * 256 + b2 * 65536 + b3 * 16777216) :: bytesToWords rest
  | _ => []

theorem bytesToWords_wordsToBytes :
    ∀ ws : List Nat, (∀ w ∈ ws, w < 4294967296) →
      bytesToWords (wordsToBytes ws) = ws
  | [], _ => rfl
  | w :: ws, h => by
      have hw : w < 4294967296 := h w (by simp)
      have ih := bytesToWords_wordsToBytes ws (fun x hx => h x (by simp [hx]))
      simp only [wordsToBytes, bytesToWords, ih, List.cons.injEq, and_true]
      omega

theorem wordsToBytes_lt : ∀ ws : List Nat, ∀ b ∈ wordsToBytes ws, b < 256
  | w :: ws, b, hb => by
      simp only [wordsToBytes, List.mem_cons] at hb
      rcases hb with h | h | h | h | h
      · omega
      · omega
      · omega
      · omega
      · exact wordsToBytes_lt ws b h

theorem wordsToBytes_length :
    ∀ ws : List Nat, (wordsToBytes ws).length = 4 * ws.length
  | [] => rfl
  | w :: ws => by
      simp only [wordsToBytes, List.length_cons, wordsToBytes_length ws]
      ring

/-- A 32-bit word read as an IEEE-754 single is finite (neither NaN nor an
infinity) iff its exponent bits 23..30 are not all ones; JavaScript
`isFinite` on a Float32Array element tests exactly this of the bit pattern. -/
def isFiniteF32 (w : Nat) : Bool := w / 8388608 % 256 ≠ 255

/-- `float32ToBase64Simple` (src/src/lib/face.ts lines 385-442): reject an
empty descriptor, reject a descriptor with no finite element, otherwise
base64-encode the raw little-endian bytes of the Float32Array.  A thrown
error is modelled as `none`.  Elements are carried as their bit patterns. -/
def float32ToBase64Simple (d : List Nat) : Option (List Char) :=
  if d.length = 0 then none
  else if d.any (fun w => isFiniteF32 w) then some (btoa (wordsToBytes d))
  else none

/-- `base64ToFloat32Simple` (src/src/lib/face.ts lines 444-456): `atob`, then
view the resulting bytes as a Float32Array; a buffer whose length is not a
multiple of 4 makes the constructor throw (`none`). -/
def base64ToFloat32Simple (s : List Char) : Option (List Nat) :=
  (atob s).bind fun bs =>
    if bs.length % 4 = 0 then some (bytesToWords bs) else none

/-- C1: for every 128-element descriptor whose elements are all finite,
decoding the encoded text form returns the descriptor exactly,
element-for-element and byte-for-byte. -/
theorem codec_roundtrip (d : List Nat) (hlen : d.length = 128)
    (hword : ∀ w ∈ d, w < 4294967296) (hfin : ∀ w ∈ d, isFiniteF32 w = true) :
    (float32ToBase64Simple d).bind base64ToFloat32Simple = some d := by
  have hne : d ≠ [] := by
    intro h
    rw [h] at hlen
    simp at hlen
  have hany : d.any (fun w => isFiniteF32 w) = true := by
    rcases d with _ | ⟨w, ws⟩
    · exact absurd rfl hne
    · simp only [List.any_cons, Bool.or_eq_true]
      exact Or.inl (hfin w (by simp))
  rw [float32ToBase64Simple, if_neg (by omega), if_pos hany, Option.some_bind,
    base64ToFloat32Simple, atob_btoa _ (wordsToBytes_lt d), Option.some_bind,
    if_pos (by rw [wordsToBytes_length]; omega),
    bytesToWords_wordsToBytes d hword]

/-- Witness for C1 at the all-zero 128-element descriptor. -/
theorem codec_roundtrip_witness :
    (float32ToBase64Simple (List.replicate 128 0)).bind base64ToFloat32Simple =
      some (List.replicate 128 0) :=
  codec_roundtrip (List.replicate 128 0) (by simp)
    (by
      intro w hw
      rw [List.eq_of_mem_replicate hw]
      omega)
    (by
      intro w hw
      rw [List.eq_of_mem_replicate hw]
      decide)

/-! ## Euclidean distance and gallery matcher (src/src/lib/face.ts) -/

/-- `computeEuclideanDistance` (src/src/lib/face.ts lines 306-313) loops over
the indices of `a`; a read past the end of `b` yields `undefined` in
JavaScript, and `a[i] - undefined` poisons the running sum to NaN (`none`).
The accumulator holds the squared distance; the source returns `Math.sqrt`
of it, a strictly monotone map on the nonnegatives, so every comparison the
callers make is mirrored here on squared values. -/
def computeEuclideanDistanceSq : List ℚ → List ℚ → Option ℚ
  | [], _ => some 0
  | _ :: _, [] => none
  | x :: xs, y :: ys =>
      (computeEuclideanDistanceSq xs ys).map (fun s => (x - y) ^ 2 + s)

/-- JavaScript `<`: false whenever either side is NaN. -/
def jsLt : Option ℚ → Option ℚ → Bool
  | some x, some y => decide (x < y)
  | _, _ => false

/-- JavaScript `<=`: false whenever either side is NaN. -/
def jsLe : Option ℚ → Option ℚ → Bool
  | some x, some y => decide (x ≤ y)
  | _, _ => false

structure GalleryEntry where
  id : String
  name : String
  descriptor : List ℚ
deriving DecidableEq

structure MatchResult where
  id : String
  name : String
  distanceSq : Option ℚ
deriving DecidableEq

/-- Loop body of `findBestMatch` (lines 329-341): linear scan keeping the
entry with the strictly smallest distance, so the first entry wins ties.
The `try/catch` around the distance call is dead code: the distance
computation cannot throw. -/
def findBestMatchLoop (query : List ℚ) :
    List GalleryEntry → Option MatchResult → Option MatchResult
  | [], best => best
  | k :: ks, best =>
      let dist := computeEuclideanDistanceSq query k.descriptor
      let best' :=
        match best with
        | none => some (MatchResult.mk k.id k.name dist)
        | some b =>
            if jsLt dist b.distanceSq then some (MatchResult.mk k.id k.name dist)
            else some b
      findBestMatchLoop query ks best'

/-- `findBestMatch` (src/src/lib/face.ts lines 315-353): scan the gallery,
return the minimum-distance entry only if its distance is at most the
threshold, `none` otherwise (and for an empty gallery).  `thresholdSq` is
the square of the source's threshold argument. -/
def findBestMatch (query : List ℚ) (knowns : List GalleryEntry)
    (thresholdSq : ℚ) : Option MatchResult :=
  match findBestMatchLoop query knowns none with
  | none => none
  | some b => if jsLe b.distanceSq (some thresholdSq) then some b else none

theorem jsLe_refl {u : Option ℚ} (h : u.isSome) : jsLe u u = true := by
  rcases u with _ | x
  · simp at h
  · simp [jsLe]

theorem jsLe_trans_le {u : Option ℚ} {y z : ℚ}
    (h : jsLe u (some y) = true) (h2 : y ≤ z) : jsLe u (some z) = true := by
  rcases u with _ | x
  · simp [jsLe] at h
  · simp [jsLe] at h ⊢
    exact h.trans h2

/-- Scan invariant: starting from accumulator `b0`, the loop returns a result
drawn from `b0` or the remaining entries whose distance is minimal among
them. -/
theorem findBestMatchLoop_spec (query : List ℚ) :
    ∀ (ks : List GalleryEntry) (b0 : MatchResult), b0.distanceSq.isSome →
      (∀ k ∈ ks, (computeEuclideanDistanceSq query k.descriptor).isSome) →
      ∃ b : MatchResult, findBestMatchLoop query ks (some b0) = some b ∧
        b.distanceSq.isSome ∧
        (b = b0 ∨ ∃ k ∈ ks,
          b = MatchResult.mk k.id k.name (computeEuclideanDistanceSq query k.descriptor)) ∧
        jsLe b.distanceSq b0.distanceSq = true ∧
        ∀ k ∈ ks, jsLe b.distanceSq (computeEuclideanDistanceSq query k.descriptor) = true
  | [], b0, h0, _ =>
      ⟨b0, rfl, h0, Or.inl rfl, jsLe_refl h0, by simp⟩
  | k :: ks, b0, h0, hall => by
      obtain ⟨d, hd⟩ := Option.isSome_iff_exists.mp (hall k (by simp))
      obtain ⟨d0, hd0⟩ := Option.isSome_iff_exists.mp h0
      by_cases hlt : jsLt (computeEuclideanDistanceSq query k.descriptor) b0.distanceSq = true
      · have hrec := findBestMatchLoop_spec query ks
          (MatchResult.mk k.id k.name (computeEuclideanDistanceSq query k.descriptor))
          (by simp [hd]) (fun k' hk' => hall k' (by simp [hk']))
        obtain ⟨b, hb, hbsome, hbfrom, hble, hballs⟩ := hrec
        refine ⟨b, ?_, hbsome, ?_, ?_, ?_⟩
        · simp only [findBestMatchLoop, hlt, if_true]
          exact hb
        · rcases hbfrom with h | ⟨k', hk', h⟩
          · exact Or.inr ⟨k, by simp, h⟩
          · exact Or.inr ⟨k', by simp [hk'], h⟩
        · have hdlt : d < d0 := by
            rw [hd, hd0] at hlt
            simpa [jsLt] using hlt
          have : jsLe b.distanceSq (some d) = true := by
            rw [hd] at hble
            exact hble
          rw [hd0]
          exact jsLe_trans_le this hdlt.le
        · intro k' hk'
          rcases List.mem_cons.mp hk' with h | h
          · subst h
            exact hble
          · exact hballs k' h
      · have hrec := findBestMatchLoop_spec query ks b0 h0
          (fun k' hk' => hall k' (by simp [hk']))
        obtain ⟨b, hb, hbsome, hbfrom, hble, hballs⟩ := hrec
        refine ⟨b, ?_, hbsome, ?_, hble, ?_⟩
        · simp only [findBestMatchLoop, hlt, if_false, Bool.false_eq_true]
          exact hb
        · rcases hbfrom with h | ⟨k', hk', h⟩
          · exact Or.inl h
          · exact Or.inr ⟨k', by simp [hk'], h⟩
        · intro k' hk'
          rcases List.mem_cons.mp hk' with h | h
          · subst h
            have hnlt : ¬ d < d0 := by
              rw [hd, hd0] at hlt
              simpa [jsLt] using hlt
            rw [hd0] at hble
            rw [hd]
            exact jsLe_trans_le hble (not_lt.mp hnlt)
          · exact hballs k' h

/-- C3: the matcher returns no match on an empty gallery; on a nonempty
gallery whose entries all yield defined distances, it returns an entry of
minimal distance exactly when that distance is within the (inclusive)
threshold, and no match when the minimum exceeds the threshold. -/
theorem findBestMatch_spec (query : List ℚ) (g : List GalleryEntry) (tSq : ℚ) :
    (g = [] → findBestMatch query g tSq = none) ∧
    (g ≠ [] → (∀ k ∈ g, (computeEuclideanDistanceSq query k.descriptor).isSome) →
      ∃ b : MatchResult,
        (∃ k ∈ g,
          b = MatchResult.mk k.id k.name (computeEuclideanDistanceSq query k.descriptor)) ∧
        (∀ k ∈ g, jsLe b.distanceSq (computeEuclideanDistanceSq query k.descriptor) = true) ∧
        findBestMatch query g tSq =
          (if jsLe b.distanceSq (some tSq) then some b else none)) := by
  constructor
  · intro h
    subst h
    rfl
  · intro hne hall
    rcases g with _ | ⟨k, ks⟩
    · exact absurd rfl hne
    · obtain ⟨b, hb, hbsome, hbfrom, hble, hballs⟩ :=
        findBestMatchLoop_spec query ks
          (MatchResult.mk k.id k.name (computeEuclideanDistanceSq query k.descriptor))
          (hall k (by simp)) (fun k' hk' => hall k' (by simp [hk']))
      refine ⟨b, ?_, ?_, ?_⟩
      · rcases hbfrom with h | ⟨k', hk', h⟩
        · exact ⟨k, by simp, h⟩
        · exact ⟨k', by simp [hk'], h⟩
      · intro k' hk'
        rcases List.mem_cons.mp hk' with h | h
        · subst h
          exact hble
        · exact hballs k' h
      · show (match findBestMatchLoop query (k :: ks) none with
          | none => none
          | some b => if jsLe b.distanceSq (some tSq) then some b else none) = _
        simp only [findBestMatchLoop, hb]

/-- Witness for C3 at a one-entry gallery where the probe's distance equals
the threshold exactly (the inclusive boundary). -/
theorem findBestMatch_spec_witness :
    ∃ b : MatchResult,
      (∃ k ∈ [GalleryEntry.mk "s1" "Alice" [0]],
        b = MatchResult.mk k.id k.name
          (computeEuclideanDistanceSq [0] k.descriptor)) ∧
      (∀ k ∈ [GalleryEntry.mk "s1" "Alice" [0]],
        jsLe b.distanceSq (computeEuclideanDistanceSq [0] k.descriptor) = true) ∧
      findBestMatch [0] [GalleryEntry.mk "s1" "Alice" [0]] 0 =
        (if jsLe b.distanceSq (some 0) then some b else none) :=
  (findBestMatch_spec [0] [GalleryEntry.mk "s1" "Alice" [0]] 0).2 (by simp)
    (by
      intro k hk
      simp only [List.mem_singleton] at hk
      subst hk
      simp [computeEuclideanDistanceSq])

/-- C8 counterexample: mismatched lengths, yet the distance computation
returns the plain numeric result 0 and raises nothing. -/
theorem distance_mismatch_counterexample :
    computeEuclideanDistanceSq [0] [0, 3] = some 0 := by
  simp [computeEuclideanDistanceSq]

/-- C8 amended: `computeEuclideanDistance` performs no length check at all;
its result is NaN exactly when `a` is longer than `b` (out-of-range reads),
and for `a` no longer than `b` it returns the numeric distance taken over
`a`'s indices, silently ignoring `b`'s extra elements.  No
`DimensionMismatch` failure exists. -/
theorem distance_mismatch_behavior (a b : List ℚ) :
    computeEuclideanDistanceSq a b = none ↔ b.length < a.length := by
  induction a generalizing b with
  | nil => simp [computeEuclideanDistanceSq]
  | cons x xs ih =>
      rcases b with _ | ⟨y, ys⟩
      · simp [computeEuclideanDistanceSq]
      · simp only [computeEuclideanDistanceSq, List.length_cons]
        rw [Option.map_eq_none', ih ys]
        omega

/-! ## Scan completion and live present-count
(src/src/pages/AttendanceScanner.tsx) -/

inductive ManualStatus
  | present
  | absent
  | unset
deriving DecidableEq

inductive Attendance
  | present
  | absent
deriving DecidableEq

/-- The per-student decision inside `completeScan` (AttendanceScanner.tsx
lines 393-418): an explicit manual mark wins; otherwise membership in the
recognized-set decides; neither ⇒ absent.  A missing record entry
(`undefined`, here `none`) and an explicit `unset` fall through to the
recognized-set check identically. -/
def attendanceOutcome (manual : String → Option ManualStatus)
    (recognizedIds : Finset String) (sid : String) : Attendance :=
  match manual sid with
  | some ManualStatus.present => Attendance.present
  | some ManualStatus.absent => Attendance.absent
  | _ =>
      if sid ∈ recognizedIds then Attendance.present else Attendance.absent

/-- One step of the `forEach` in `completeScan` that files a student into
`finalPresentIds` or `finalAbsentIds`. -/
def completeScanStep (manual : String → Option ManualStatus)
    (recognizedIds : Finset String) (acc : Finset String × Finset String)
    (sid : String) : Finset String × Finset String :=
  match manual sid with
  | some ManualStatus.present => (insert sid acc.1, acc.2)
  | some ManualStatus.absent => (acc.1, insert sid acc.2)
  | _ =>
      if sid ∈ recognizedIds then (insert sid acc.1, acc.2)
      else (acc.1, insert sid acc.2)

/-- `completeScan`'s final partition of the enrolled students
(lines 393-418). -/
def completeScanPartition (enrollments : List String)
    (manual : String → Option ManualStatus) (recognizedIds : Finset String) :
    Finset String × Finset String :=
  enrollments.foldl (completeScanStep manual recognizedIds) (∅, ∅)

theorem completeScanStep_fst (manual : String → Option ManualStatus)
    (recognizedIds : Finset String) (acc : Finset String × Finset String)
    (sid sid' : String) :
    (sid ∈ (completeScanStep manual recognizedIds acc sid').1 ↔
      sid ∈ acc.1 ∨ (sid = sid' ∧
        attendanceOutcome manual recognizedIds sid' = Attendance.present)) ∧
    (sid ∈ (completeScanStep manual recognizedIds acc sid').2 ↔
      sid ∈ acc.2 ∨ (sid = sid' ∧
        attendanceOutcome manual recognizedIds sid' = Attendance.absent)) := by
  rcases hm : manual sid' with _ | st
  · by_cases hr : sid' ∈ recognizedIds <;>
      simp [completeScanStep, attendanceOutcome, hm, hr, Finset.mem_insert] <;>
      tauto
  · rcases st <;>
      [skip; skip; by_cases hr : sid' ∈ recognizedIds] <;>
      simp [completeScanStep, attendanceOutcome, hm, Finset.mem_insert] <;>
      first
        | tauto
        | (simp [hr, Finset.mem_insert]; tauto)

theorem completeScanFold_mem (manual : String → Option ManualStatus)
    (recognizedIds : Finset String) :
    ∀ (enrollments : List String) (acc : Finset String × Finset String)
      (sid : String),
      (sid ∈ (enrollments.foldl (completeScanStep manual recognizedIds) acc).1 ↔
        sid ∈ acc.1 ∨ (sid ∈ enrollments ∧
          attendanceOutcome manual recognizedIds sid = Attendance.present)) ∧
      (sid ∈ (enrollments.foldl (completeScanStep manual recognizedIds) acc).2 ↔
        sid ∈ acc.2 ∨ (sid ∈ enrollments ∧
          attendanceOutcome manual recognizedIds sid = Attendance.absent))
  | [], acc, sid => by simp
  | sid' :: rest, acc, sid => by
      have hstep := completeScanStep_fst manual recognizedIds acc sid sid'
      have ih := completeScanFold_mem manual recognizedIds rest
        (completeScanStep manual recognizedIds acc sid') sid
      simp only [List.foldl_cons, List.mem_cons]
      rw [ih.1, ih.2, hstep.1, hstep.2]
      constructor
      · constructor
        · rintro ((h | ⟨rfl, h⟩) | ⟨hmem, h⟩)
          · exact Or.inl h
          · exact Or.inr ⟨Or.inl rfl, h⟩
          · exact Or.inr ⟨Or.inr hmem, h⟩
        · rintro (h | ⟨(rfl | hmem), h⟩)
          · exact Or.inl (Or.inl h)
          · exact Or.inl (Or.inr ⟨rfl, h⟩)
          · exact Or.inr ⟨hmem, h⟩
      · constructor
        · rintro ((h | ⟨rfl, h⟩) | ⟨hmem, h⟩)
          · exact Or.inl h
          · exact Or.inr ⟨Or.inl rfl, h⟩
          · exact Or.inr ⟨Or.inr hmem, h⟩
        · rintro (h | ⟨(rfl | hmem), h⟩)
          · exact Or.inl (Or.inl h)
          · exact Or.inl (Or.inr ⟨rfl, h⟩)
          · exact Or.inr ⟨hmem, h⟩

/-- C2: at scan completion every enrolled student's final outcome follows the
precedence rule: a manual present mark yields present, a manual absent mark
yields absent (even for a recognized student), and with no manual mark the
outcome is present exactly when the student is in the recognized-set —
in particular neither mark nor recognition means absent. -/
theorem completeScan_outcome (enrollments : List String)
    (manual : String → Option ManualStatus) (recognizedIds : Finset String)
    (sid : String) (hmem : sid ∈ enrollments) :
    (sid ∈ (completeScanPartition enrollments manual recognizedIds).1 ↔
      attendanceOutcome manual recognizedIds sid = Attendance.present) ∧
    (sid ∈ (completeScanPartition enrollments manual recognizedIds).2 ↔
      attendanceOutcome manual recognizedIds sid = Attendance.absent) ∧
    (manual sid = some ManualStatus.present →
      attendanceOutcome manual recognizedIds sid = Attendance.present) ∧
    (manual sid = some ManualStatus.absent →
      attendanceOutcome manual recognizedIds sid = Attendance.absent) ∧
    ((manual sid = none ∨ manual sid = some ManualStatus.unset) →
      (attendanceOutcome manual recognizedIds sid = Attendance.present ↔
        sid ∈ recognizedIds)) := by
  have hfold := completeScanFold_mem manual recognizedIds enrollments (∅, ∅) sid
  refine ⟨?_, ?_, ?_, ?_, ?_⟩
  · rw [completeScanPartition, hfold.1]
    simp [hmem]
  · rw [completeScanPartition, hfold.2]
    simp [hmem]
  · intro h
    simp [attendanceOutcome, h]
  · intro h
    simp [attendanceOutcome, h]
  · rintro (h | h) <;>
      by_cases hr : sid ∈ recognizedIds <;>
      simp [attendanceOutcome, h, hr]

/-- Witness for C2: "s1" is auto-recognized but manually marked absent, and
the final outcome is absent. -/
theorem completeScan_outcome_witness :
    (("s1" : String) ∈
      (completeScanPartition ["s1", "s2"]
        (fun sid => if sid = "s1" then some ManualStatus.absent else none)
        {"s1"}).1 ↔
      attendanceOutcome
        (fun sid => if sid = "s1" then some ManualStatus.absent else none)
        {"s1"} "s1" = Attendance.present) ∧
    (("s1" : String) ∈
      (completeScanPartition ["s1", "s2"]
        (fun sid => if sid = "s1" then some ManualStatus.absent else none)
        {"s1"}).2 ↔
      attendanceOutcome
        (fun sid => if sid = "s1" then some ManualStatus.absent else none)
        {"s1"} "s1" = Attendance.absent) ∧
    ((fun sid => if sid = "s1" then some ManualStatus.absent else none) "s1" =
        some ManualStatus.present →
      attendanceOutcome
        (fun sid => if sid = "s1" then some ManualStatus.absent else none)
        {"s1"} "s1" = Attendance.present) ∧
    ((fun sid => if sid = "s1" then some ManualStatus.absent else none) "s1" =
        some ManualStatus.absent →
      attendanceOutcome
        (fun sid => if sid = "s1" then some ManualStatus.absent else none)
        {"s1"} "s1" = Attendance.absent) ∧
    (((fun sid => if sid = "s1" then some ManualStatus.absent else none) "s1" =
        none ∨
      (fun sid => if sid = "s1" then some ManualStatus.absent else none) "s1" =
        some ManualStatus.unset) →
      (attendanceOutcome
        (fun sid => if sid = "s1" then some ManualStatus.absent else none)
        {"s1"} "s1" = Attendance.present ↔ ("s1" : String) ∈ ({"s1"} : Finset String))) :=
  completeScan_outcome ["s1", "s2"]
    (fun sid => if sid = "s1" then some ManualStatus.absent else none)
    {"s1"} "s1" (by simp)

/-! ## Live present-count invariant (AttendanceScanner.tsx) -/

/-- The scan-session state touched by the recognition loop and the manual
override handler.  `manualAttendance` models the record with
`prev[studentId] || 'unset'` coercion: a missing key behaves as `unset`.
The count is an integer, as a JavaScript number would go negative if the
decrement ever ran on an empty set. -/
structure ScanState where
  recognizedIds : Finset String
  recognizedCount : ℤ
  manualAttendance : String → ManualStatus

def initialScanState : ScanState :=
  ScanState.mk ∅ 0 (fun _ => ManualStatus.unset)

/-- The cycle unset → present → absent → unset (line 357). -/
def nextManualStatus : ManualStatus → ManualStatus
  | ManualStatus.unset => ManualStatus.present
  | ManualStatus.present => ManualStatus.absent
  | ManualStatus.absent => ManualStatus.unset

/-- `toggleManualAttendance` (lines 354-374): cycle the student's manual
status; entering `present` inserts into the recognized-set and increments
the count, leaving `present` removes and decrements. -/
def toggleManualAttendance (s : ScanState) (sid : String) : ScanState :=
  let next := nextManualStatus (s.manualAttendance sid)
  let s1 :=
    if next = ManualStatus.present ∧ sid ∉ s.recognizedIds then
      { s with recognizedIds := insert sid s.recognizedIds,
               recognizedCount := s.recognizedCount + 1 }
    else if next ≠ ManualStatus.present ∧ sid ∈ s.recognizedIds then
      { s with recognizedIds := s.recognizedIds.erase sid,
               recognizedCount := s.recognizedCount - 1 }
    else s
  { s1 with
    manualAttendance := fun x => if x = sid then next else s1.manualAttendance x }

/-- The recognition commit in the scan loop (lines 698-707): the ids of the
newly recognized faces are added to a copy of the recognized-set and the
count is set to the new set's cardinality.  (The source skips ids already
present before inserting; insertion into a set is idempotent, so the skip
is immaterial.) -/
def commitRecognition (s : ScanState) (faces : List String) : ScanState :=
  let newIds := faces.foldl (fun acc i => insert i acc) s.recognizedIds
  { s with recognizedIds := newIds, recognizedCount := (newIds.card : ℤ) }

inductive ScanOp
  | toggle (sid : String)
  | recognize (faces : List String)

def applyScanOp (s : ScanState) : ScanOp → ScanState
  | ScanOp.toggle sid => toggleManualAttendance s sid
  | ScanOp.recognize faces => commitRecognition s faces

def runScanOps (ops : List ScanOp) : ScanState :=
  ops.foldl applyScanOp initialScanState

theorem applyScanOp_count (s : ScanState) (op : ScanOp)
    (h : s.recognizedCount = (s.recognizedIds.card : ℤ)) :
    (applyScanOp s op).recognizedCount =
      ((applyScanOp s op).recognizedIds.card : ℤ) := by
  rcases op with sid | faces
  · simp only [applyScanOp, toggleManualAttendance]
    by_cases h1 : nextManualStatus (s.manualAttendance sid) = ManualStatus.present ∧
        sid ∉ s.recognizedIds
    · simp only [if_pos h1]
      rw [h, Finset.card_insert_of_not_mem h1.2]
      push_cast
      ring
    · simp only [if_neg h1]
      by_cases h2 : nextManualStatus (s.manualAttendance sid) ≠ ManualStatus.present ∧
          sid ∈ s.recognizedIds
      · simp only [if_pos h2]
        have hcard : 1 ≤ s.recognizedIds.card :=
          Finset.one_le_card.mpr ⟨sid, h2.2⟩
        rw [h, Finset.card_erase_of_mem h2.2]
        push_cast [Nat.cast_sub hcard]
        ring
      · simp only [if_neg h2]
        exact h
  · rfl

/-- C4: after every prefix of recognition passes and manual override toggles
(starting from the empty session), the present-count exposed to the user
equals the cardinality of the recognized-set — no student is ever double
counted. -/
theorem presentCount_eq_card (ops : List ScanOp) :
    (runScanOps ops).recognizedCount =
      ((runScanOps ops).recognizedIds.card : ℤ) := by
  suffices h : ∀ (l : List ScanOp) (s : ScanState),
      s.recognizedCount = (s.recognizedIds.card : ℤ) →
      (l.foldl applyScanOp s).recognizedCount =
        ((l.foldl applyScanOp s).recognizedIds.card : ℤ) by
    exact h ops initialScanState (by simp [initialScanState])
  intro l
  induction l with
  | nil => exact fun s hs => hs
  | cons op rest ih =>
      intro s hs
      exact ih (applyScanOp s op) (applyScanOp_count s op hs)

/-! ## Face-position smoothing (AttendanceScanner.tsx lines 233-257) -/

structure Pos where
  x : ℚ
  y : ℚ
  width : ℚ
  height : ℚ
deriving DecidableEq

/-- The last `n` elements of a list (`Array.prototype.slice(-n)`). -/
def lastN (n : Nat) (l : List Pos) : List Pos := l.drop (l.length - n)

/-- Componentwise arithmetic mean (the reduce / length divisions in
lines 246-249). -/
def meanPos (l : List Pos) : Pos :=
  Pos.mk ((l.map Pos.x).sum / (l.length : ℚ))
    ((l.map Pos.y).sum / (l.length : ℚ))
    ((l.map Pos.width).sum / (l.length : ℚ))
    ((l.map Pos.height).sum / (l.length : ℚ))

/-- `smoothFacePosition` (lines 233-257) acting on one track's history:
append the new position, keep the last 5, and return the new history
together with the displayed position — the raw position for a 1-element
history, the mean of the history otherwise. -/
def smoothStep (history : List Pos) (newPosition : Pos) : List Pos × Pos :=
  let updatedHistory := lastN 5 (history ++ [newPosition])
  (updatedHistory,
    if updatedHistory.length = 1 then newPosition else meanPos updatedHistory)

/-- History of a single track after feeding it a sequence of positions. -/
def feedHistory (ps : List Pos) : List Pos :=
  ps.foldl (fun h p => (smoothStep h p).1) []

/-- The displayed (smoothed) position right after the last of `ps ++ [p]`. -/
def displayedAfter (ps : List Pos) (p : Pos) : Pos :=
  (smoothStep (feedHistory ps) p).2

theorem lastN_append_one (l : List Pos) (p : Pos) :
    lastN 5 (lastN 5 l ++ [p]) = lastN 5 (l ++ [p]) := by
  rcases le_or_lt l.length 5 with h | h
  · have h0 : l.length - 5 = 0 := by omega
    simp [lastN, h0]
  · have hm : (lastN 5 l).length = 5 := by
      simp only [lastN, List.length_drop]
      omega
    simp only [lastN, List.length_append, hm, List.length_singleton,
      List.drop_append_eq_append_drop, List.length_drop, List.drop_drop]
    congr 2 <;> omega

theorem feedHistory_fold (ps : List Pos) :
    ∀ l : List Pos,
      ps.foldl (fun h p => (smoothStep h p).1) (lastN 5 l) = lastN 5 (l ++ ps) := by
  induction ps with
  | nil => intro l; simp
  | cons p ps ih =>
      intro l
      have hstep : (smoothStep (lastN 5 l) p).1 = lastN 5 (l ++ [p]) := by
        simp only [smoothStep, lastN_append_one]
      simp only [List.foldl_cons, hstep, ih (l ++ [p]), List.append_assoc,
        List.singleton_append]

theorem feedHistory_eq_lastN (ps : List Pos) : feedHistory ps = lastN 5 ps := by
  have h := feedHistory_fold ps []
  simpa [feedHistory, lastN] using h

/-- C9: for a single track fed one position per frame, the displayed
(smoothed) position after the k-th update is the arithmetic mean of the
last min(k, 5) positions pushed — a 5-deep sliding window, so the 6th
update's display excludes the 1st position. -/
theorem smoothing_sliding_window (ps : List Pos) (p : Pos) :
    displayedAfter ps p = meanPos (lastN 5 (ps ++ [p])) := by
  simp only [displayedAfter, smoothStep, feedHistory_eq_lastN, lastN_append_one]
  by_cases h : (lastN 5 (ps ++ [p])).length = 1
  · rw [if_pos h]
    have hlen : ps.length = 0 := by
      simp only [lastN, List.length_drop, List.length_append,
        List.length_singleton] at h
      omega
    have hnil : ps = [] := List.length_eq_zero.mp hlen
    subst hnil
    simp [lastN, meanPos]
  · rw [if_neg h]

/-! ## Face tracker (AttendanceScanner.tsx lines 192-340, 612-729) -/

structure LandmarkPoints where
  noseX : ℚ
  noseY : ℚ
  leftEyeX : ℚ
  leftEyeY : ℚ
  rightEyeX : ℚ
  rightEyeY : ℚ
deriving DecidableEq

structure DetectedFace where
  descriptor : List ℚ
  box : Pos
  score : ℚ
  landmarks : Option LandmarkPoints
deriving DecidableEq

/-- A tracked face (the source's `FaceDetection` interface). -/
structure FaceDetection where
  id : String
  name : String
  confidence : ℚ
  accuracy : ℚ
  position : Pos
  isRecognized : Bool
  nosePosition : Option (ℚ × ℚ)
deriving DecidableEq

structure DynamicBox where
  x : ℚ
  y : ℚ
  width : ℚ
  height : ℚ
  noseX : ℚ
  noseY : ℚ
deriving DecidableEq

/-- `calculateDynamicFaceBox` (lines 199-230): box of 90% of the raw size,
centred on the nose (landmark nose if present, otherwise 40% down the box),
with the nose 30% from the box top; clamped at the frame origin. -/
def calculateDynamicFaceBox (originalBox : Pos)
    (landmarks : Option LandmarkPoints) : DynamicBox :=
  let faceWidth := originalBox.width
  let faceHeight := originalBox.height
  let noseX :=
    match landmarks with
    | some lm => lm.noseX
    | none => originalBox.x + faceWidth / 2
  let noseY :=
    match landmarks with
    | some lm => lm.noseY
    | none => originalBox.y + faceHeight * (2 / 5)
  let boxWidth := faceWidth * (9 / 10)
  let boxHeight := faceHeight * (9 / 10)
  let boxX := noseX - boxWidth / 2
  let boxY := noseY - boxHeight * (3 / 10)
  DynamicBox.mk (max 0 boxX) (max 0 boxY) boxWidth boxHeight noseX noseY

/-- `calculateFaceDistance` (lines 192-196), squared: the source compares
its square root against the nonnegative radius `min(w, h) * 0.5`, and
square root is strictly monotone on nonnegatives, so all comparisons are
mirrored here on squares. -/
def calculateFaceDistanceSq (face1 face2 : Pos) : ℚ :=
  ((face1.x + face1.width / 2) - (face2.x + face2.width / 2)) ^ 2 +
  ((face1.y + face1.height / 2) - (face2.y + face2.height / 2)) ^ 2

/-- The provisional track id `face_<timestamp>_<index>` (line 309). -/
def mkFaceId (now idx : Nat) : String :=
  "face_" ++ toString now ++ "_" ++ toString idx

/-- The inner search of `matchFacesWithTracked` (lines 266-278): nearest
not-yet-used tracked face whose centre lies within half the new face's
smaller dimension. -/
def findTrackMatch (tracked : List (String × FaceDetection))
    (used : List String) (newBox : Pos) : Option (String × ℚ) :=
  tracked.foldl
    (fun best p =>
      if p.1 ∈ used then best
      else
        let dSq := calculateFaceDistanceSq newBox p.2.position
        let maxDistSq := (min newBox.width newBox.height / 2) ^ 2
        match best with
        | none => if dSq < maxDistSq then some (p.1, dSq) else none
        | some b =>
            if dSq < maxDistSq ∧ dSq < b.2 then some (p.1, dSq) else some b)
    none

structure MatchAccum where
  matchedFaces : List FaceDetection
  used : List String
  history : String → List Pos

/-- One iteration of the `newFaces.forEach` in `matchFacesWithTracked`
(lines 265-337): update the associated track in place (smoothed,
nose-centred box, identity preserved) or create a fresh provisional track.
The `none` branch of the map lookup is unreachable: the id returned by
`findTrackMatch` is always a key of `tracked`. -/
def matchOneFace (tracked : List (String × FaceDetection)) (acc : MatchAccum)
    (newFace : DetectedFace) (now idx : Nat) : MatchAccum :=
  match findTrackMatch tracked acc.used newFace.box with
  | some (tid, _) =>
      match List.lookup tid tracked with
      | none => acc
      | some trackedFace =>
          let dynamicBox := calculateDynamicFaceBox newFace.box newFace.landmarks
          let res := smoothStep (acc.history tid)
            (Pos.mk dynamicBox.x dynamicBox.y dynamicBox.width dynamicBox.height)
          let updatedFace :=
            { trackedFace with
              position := res.2,
              nosePosition := some (dynamicBox.noseX, dynamicBox.noseY),
              confidence := newFace.score }
          MatchAccum.mk (acc.matchedFaces ++ [updatedFace]) (acc.used ++ [tid])
            (fun t => if t = tid then res.1 else acc.history t)
  | none =>
      let newId := mkFaceId now idx
      let dynamicBox := calculateDynamicFaceBox newFace.box newFace.landmarks
      let res := smoothStep (acc.history newId)
        (Pos.mk dynamicBox.x dynamicBox.y dynamicBox.width dynamicBox.height)
      let newTrackedFace := FaceDetection.mk newId "Detecting..." newFace.score 0
        res.2 false (some (dynamicBox.noseX, dynamicBox.noseY))
      MatchAccum.mk (acc.matchedFaces ++ [newTrackedFace]) acc.used
        (fun t => if t = newId then res.1 else acc.history t)

/-- `matchFacesWithTracked` (lines 260-340). -/
def matchFacesWithTracked (tracked : List (String × FaceDetection))
    (history : String → List Pos) (newFaces : List DetectedFace) (now : Nat) :
    MatchAccum :=
  newFaces.enum.foldl (fun acc p => matchOneFace tracked acc p.2 now p.1)
    (MatchAccum.mk [] [] history)

/-- The scan-session state the tracking part of the loop touches. -/
structure TrackerState where
  trackedFaces : List (String × FaceDetection)
  facePositionHistory : String → List Pos
  detectedFaces : List FaceDetection

/-- The application of one detection pass's results (lines 612-729),
tracking part.  Zero detections: only the displayed-faces list is cleared
(lines 725-728) — the tracked map is untouched.  All detections failing the
20-pixel size filter: early return, nothing changes (lines 613-620).
Otherwise the tracked map is rebuilt from exactly this frame's matched
faces (lines 630-635), dropping unmatched tracks.  The recognition block
(lines 643-723) mutates fields of individual tracked entries and the
displayed list but neither adds nor removes tracked entries, so it is not
modelled here. -/
def processFrame (s : TrackerState) (dets : List DetectedFace) (now : Nat) :
    TrackerState :=
  if dets.length = 0 then
    { s with detectedFaces := [] }
  else
    let validFaces := dets.filter fun f => 20 < f.box.width ∧ 20 < f.box.height
    if validFaces.length = 0 then s
    else
      let result := matchFacesWithTracked s.trackedFaces s.facePositionHistory
        validFaces now
      { s with trackedFaces := result.matchedFaces.map (fun f => (f.id, f)),
               facePositionHistory := result.history }

/-- C6 counterexample: a frame on which detection yields zero faces leaves
the existing (nonempty) tracked-face set unchanged instead of dropping all
tracks. -/
theorem zero_detections_keeps_tracks :
    (processFrame
      (TrackerState.mk
        [("face_1_0",
          FaceDetection.mk "face_1_0" "Detecting..." 1 0 (Pos.mk 0 0 30 30)
            false none)]
        (fun _ => []) [])
      [] 7).trackedFaces =
      [("face_1_0",
        FaceDetection.mk "face_1_0" "Detecting..." 1 0 (Pos.mk 0 0 30 30)
          false none)] ∧
    [("face_1_0",
      FaceDetection.mk "face_1_0" "Detecting..." 1 0 (Pos.mk 0 0 30 30)
        false none)] ≠ ([] : List (String × FaceDetection)) := by
  exact ⟨rfl, by simp⟩

/-- C6 amended: a zero-detection frame leaves the tracked-face set unchanged
and clears only the displayed list; stale tracks are dropped only on a
frame with at least one detection surviving the size filter, where the
tracked map is rebuilt from exactly that frame's matched faces. -/
theorem zero_detections_tracker (s : TrackerState) (dets : List DetectedFace)
    (now : Nat)
    (hvalid : dets.filter (fun f => 20 < f.box.width ∧ 20 < f.box.height) ≠ []) :
    ((processFrame s [] now).trackedFaces = s.trackedFaces ∧
     (processFrame s [] now).detectedFaces = []) ∧
    (processFrame s dets now).trackedFaces =
      (matchFacesWithTracked s.trackedFaces s.facePositionHistory
        (dets.filter (fun f => 20 < f.box.width ∧ 20 < f.box.height))
        now).matchedFaces.map (fun f => (f.id, f)) := by
  refine ⟨⟨rfl, rfl⟩, ?_⟩
  have hdets : dets ≠ [] := by
    intro h
    subst h
    simp at hvalid
  have hlen : dets.length ≠ 0 := fun h => hdets (List.length_eq_zero.mp h)
  have hvlen : (dets.filter
      (fun f => 20 < f.box.width ∧ 20 < f.box.height)).length ≠ 0 :=
    fun h => hvalid (List.length_eq_zero.mp h)
  simp only [processFrame, if_neg hlen, if_neg hvlen]

/-- Witness for C6's amended statement at a single 30×30 detection. -/
theorem zero_detections_tracker_witness :
    ((processFrame
        (TrackerState.mk [] (fun _ => []) [])
        [] 7).trackedFaces = (TrackerState.mk [] (fun _ => []) []).trackedFaces ∧
     (processFrame
        (TrackerState.mk [] (fun _ => []) [])
        [] 7).detectedFaces = []) ∧
    (processFrame (TrackerState.mk [] (fun _ => []) [])
        [DetectedFace.mk [0] (Pos.mk 0 0 30 30) 1 none] 7).trackedFaces =
      (matchFacesWithTracked [] (fun _ => [])
        ([DetectedFace.mk [0] (Pos.mk 0 0 30 30) 1 none].filter
          (fun f => 20 < f.box.width ∧ 20 < f.box.height))
        7).matchedFaces.map (fun f => (f.id, f)) :=
  zero_detections_tracker (TrackerState.mk [] (fun _ => []) [])
    [DetectedFace.mk [0] (Pos.mk 0 0 30 30) 1 none] 7 (by decide)

/-! ## Scan-loop cancellation (AttendanceScanner.tsx lines 527-768) -/

inductive LoopPhase
  | idle
  | awaitingDetection
deriving DecidableEq

/-- The slice of session state relevant to cancellation: the effect-local
`cancelled` flag, whether a loop iteration is currently suspended at the
detection `await` (line 597), and the session state the post-await code
writes. -/
structure SessionState where
  cancelled : Bool
  phase : LoopPhase
  trackedFaceIds : List String
  recognitionStatus : String
deriving DecidableEq

inductive LoopEvent
  | startIteration
  | cancelScan
  | detectionResolves (faces : List String)

/-- Event-level model of the loop body.  `startIteration` is the guard at
loop entry (lines 545-551): a cancelled session does nothing; otherwise the
iteration suspends awaiting detection.  `cancelScan` is the effect cleanup
(lines 759-767), which sets the cancellation flag.  `detectionResolves` is
the code following the await (lines 603-729): it applies the detection's
results unconditionally — the source performs no cancellation re-check
after the await. -/
def stepLoop (s : SessionState) : LoopEvent → SessionState
  | LoopEvent.cancelScan => { s with cancelled := true }
  | LoopEvent.startIteration =>
      if s.cancelled ∨ s.phase ≠ LoopPhase.idle then s
      else { s with phase := LoopPhase.awaitingDetection }
  | LoopEvent.detectionResolves faces =>
      match s.phase with
      | LoopPhase.awaitingDetection =>
          if faces = [] then
            { s with phase := LoopPhase.idle, recognitionStatus := "idle" }
          else
            { s with phase := LoopPhase.idle, trackedFaceIds := faces,
                     recognitionStatus := "recognizing" }
      | LoopPhase.idle => s

/-- C5 (violated by the code): a detection call in flight when the scan is
cancelled still mutates session state when it resolves — here the trace
start-iteration, cancel, detection-resolves ends with a changed tracked set
and status, because the cancellation flag is consulted only at loop entry. -/
theorem stale_detection_mutates_after_cancel :
    (stepLoop (stepLoop (SessionState.mk false LoopPhase.idle [] "idle")
        LoopEvent.startIteration) LoopEvent.cancelScan).cancelled = true ∧
    stepLoop (stepLoop (stepLoop (SessionState.mk false LoopPhase.idle [] "idle")
        LoopEvent.startIteration) LoopEvent.cancelScan)
      (LoopEvent.detectionResolves ["face_1_0"]) ≠
      stepLoop (stepLoop (SessionState.mk false LoopPhase.idle [] "idle")
        LoopEvent.startIteration) LoopEvent.cancelScan ∧
    (stepLoop (stepLoop (stepLoop (SessionState.mk false LoopPhase.idle [] "idle")
        LoopEvent.startIteration) LoopEvent.cancelScan)
      (LoopEvent.detectionResolves ["face_1_0"])).trackedFaceIds =
      ["face_1_0"] := by
  refine ⟨rfl, ?_, rfl⟩
  decide

/-! ## Enrollment capture (src/unnamed/part_004, StudentEnrollment) -/

inductive EnrollmentStep
  | info
  | position
  | capture
  | angles
  | review
  | complete
deriving DecidableEq

/-- The enrollment component's capture-related state.  `descriptorB64`
starts as the empty string; JavaScript truthiness of the string is
nonemptiness. -/
structure EnrollState where
  currentStep : EnrollmentStep
  descriptorB64 : List Char
  isCapturing : Bool
  captureProgress : ℚ
  angleCaptureStarted : Bool
  angleCaptureProgress : ℚ
deriving DecidableEq

/-- `captureDescriptor` (part_004 lines 235-324).  The guard at line 236
returns immediately when the video element is missing, a capture is in
progress, or a descriptor is already stored (`descriptorB64` truthy).
Otherwise the externally produced detection result is validated, encoded
with `float32ToBase64Simple`, and stored; every failure path (no face,
empty descriptor, encoding throw, empty encoding) ends with
`isCapturing := false` and progress 0.  The auto-advance to the angles
step fires asynchronously 400ms later and is not part of this function's
state change. -/
def captureDescriptor (s : EnrollState) (videoReady : Bool)
    (detection : Option (List Nat)) : EnrollState :=
  if ¬videoReady ∨ s.isCapturing ∨ s.descriptorB64 ≠ [] then s
  else
    match detection with
    | none => { s with isCapturing := false, captureProgress := 0 }
    | some descriptor =>
        if descriptor.length = 0 then
          { s with isCapturing := false, captureProgress := 0 }
        else
          match float32ToBase64Simple descriptor with
          | none => { s with isCapturing := false, captureProgress := 0 }
          | some b64 =>
              if b64.length = 0 then
                { s with isCapturing := false, captureProgress := 0 }
              else
                { s with descriptorB64 := b64, captureProgress := 100,
                         isCapturing := false }

/-- `captureAngles` (part_004 lines 327-382): guarded on video presence, a
running capture, and a detected face; its body only walks the progress
indicator through toasts and timers — it never invokes the detector and
never writes `descriptorB64`. -/
def captureAngles (s : EnrollState) (videoReady faceDetected : Bool) :
    EnrollState :=
  if ¬videoReady ∨ s.isCapturing ∨ ¬faceDetected then s
  else
    { s with isCapturing := false, angleCaptureStarted := false,
             angleCaptureProgress := 100 }

/-- C7 counterexample: after a successful capture-step snapshot, running the
angles step leaves the stored descriptor byte-for-byte unchanged — no
second snapshot is taken and nothing is overwritten. -/
theorem angles_capture_no_overwrite :
    (captureAngles
      (captureDescriptor
        (EnrollState.mk EnrollmentStep.capture [] false 0 false 0) true
        (some [0]))
      true true).descriptorB64 =
    (captureDescriptor
      (EnrollState.mk EnrollmentStep.capture [] false 0 false 0) true
      (some [0])).descriptorB64 ∧
    (captureDescriptor
      (EnrollState.mk EnrollmentStep.capture [] false 0 false 0) true
      (some [0])).descriptorB64 ≠ [] := by
  decide

/-- C7 amended: the angles step captures no descriptor at all — for every
state and input, `captureAngles` leaves `descriptorB64` unchanged, so the
descriptor persisted for the student is the single capture-step snapshot
(first capture wins; re-capture is blocked by the guard proved for C10). -/
theorem captureAngles_preserves_descriptor (s : EnrollState)
    (videoReady faceDetected : Bool) :
    (captureAngles s videoReady faceDetected).descriptorB64 =
      s.descriptorB64 := by
  unfold captureAngles
  split <;> rfl

/-- C10: once a nonempty encoded descriptor is stored, every subsequent
invocation of `captureDescriptor` returns immediately and leaves the whole
capture state — `descriptorB64` included — unchanged. -/
theorem captureDescriptor_noop_after_success (s : EnrollState)
    (videoReady : Bool) (detection : Option (List Nat))
    (h : s.descriptorB64 ≠ []) :
    captureDescriptor s videoReady detection = s := by
  unfold captureDescriptor
  rw [if_pos (Or.inr (Or.inr h))]

/-- Witness for C10: a second capture attempt with a different detection
result leaves the first successfully captured state untouched. -/
theorem captureDescriptor_noop_witness :
    captureDescriptor
      (captureDescriptor
        (EnrollState.mk EnrollmentStep.capture [] false 0 false 0) true
        (some [0]))
      true (some [1, 2]) =
    captureDescriptor
      (EnrollState.mk EnrollmentStep.capture [] false 0 false 0) true
      (some [0]) :=
  captureDescriptor_noop_after_success
    (captureDescriptor
      (EnrollState.mk EnrollmentStep.capture [] false 0 false 0) true
      (some [0]))
    true (some [1, 2]) (by decide)
